import Mathlib

/-!
# Verification of the invoice generator's computational core

Shallow embedding of the pure computational parts of
`service/invoice_generator.py` and `service/lambda_function.py`:

* `number_to_words` (Indian numbering system) and its helper
  `convert_below_thousand`;
* `safe_float` numeric coercion (with a model of Python's `float()`
  parser on plain decimal literals);
* `format_amount` decimal-aware stringification;
* the tax-summary portion of `InvoiceGenerator._transform_input`
  (tax-rate back-calculation, round-off, final total);
* `InvoiceGenerator._parse_customer_info`;
* the required-field validation of `lambda_handler`.

Python machine floats are modelled as exact rationals (`ℚ`); Python's
built-in `round` (round-half-to-even) is modelled exactly on rationals.
Functions that cannot raise in the embedding (they are total) model the
source's catch-all fallbacks by explicit defaults, mirroring the source
branch for branch.
-/

namespace Invoice

/-! ## Generic models of Python built-ins -/

/-- Model of Python's `sep.join(list)`. -/
def pyJoin (sep : String) : List String → String
  | [] => ""
  | [s] => s
  | s :: rest => s ++ sep ++ pyJoin sep rest

/-- Model of Python's `str.strip()`: remove leading and trailing
whitespace. -/
def pyStrip (s : String) : String :=
  String.mk (((s.data.dropWhile Char.isWhitespace).reverse.dropWhile
    Char.isWhitespace).reverse)

/-- Decimal digit characters of `n`, most significant first.  The `fuel`
argument (always invoked with `fuel > n`, which is more than the number
of digits) makes the recursion structural. -/
def natDigitsAux : Nat → Nat → List Char
  | 0, _ => []
  | fuel + 1, n =>
      if n = 0 then [] else natDigitsAux fuel (n / 10) ++ [Nat.digitChar (n % 10)]

/-- Model of Python's `str()` on a non-negative integer. -/
def pyStrNat (n : Nat) : String :=
  if n = 0 then "0" else String.mk (natDigitsAux (n + 1) n)

/-- Model of Python's `str()` on an integer. -/
def pyStrInt (i : Int) : String :=
  if i < 0 then "-" ++ pyStrNat i.natAbs else pyStrNat i.natAbs

/-- Model of Python's built-in `round()` to an integer on exact
rationals: round-half-to-even (banker's rounding), the documented
semantics of `round(float)`. -/
def pyRound (x : ℚ) : ℤ :=
  let f := ⌊x⌋
  let r := x - f
  if r < 1 / 2 then f
  else if 1 / 2 < r then f + 1
  else if f % 2 = 0 then f else f + 1

/-- Model of Python's `round(x, 2)` on exact rationals: half-to-even at
two decimal places. -/
def pyRound2 (x : ℚ) : ℚ := (pyRound (x * 100) : ℚ) / 100

/-- Values of the Python type `Union[str, int, float, None]` accepted by
`safe_float`. -/
inductive PyVal where
  | str : String → PyVal
  | int : Int → PyVal
  | float : ℚ → PyVal
  | none : PyVal

/-- Model of `value.replace(',', '')` on a string: drop every comma. -/
def stripCommas (s : String) : String :=
  String.mk (s.data.filter (fun c => c ≠ ','))

/-- All characters of the list are decimal digits. -/
def allDigits (l : List Char) : Bool := l.all (fun c => c.isDigit)

/-- Numeric value of a list of decimal digit characters. -/
def digitsVal (l : List Char) : Nat :=
  l.foldl (fun a c => 10 * a + (c.toNat - 48)) 0

/-- Model of Python's `float()` parser, restricted to plain decimal
literals: an optional sign, then digits with at most one decimal point
and at least one digit in total.  Exponent notation, `inf`/`nan` and
surrounding whitespace are not modelled (no input exercised by the
claims uses them).  Returns `none` exactly where `float()` raises
`ValueError` on the modelled fragment. -/
def parseFloat (s : String) : Option ℚ :=
  let signAndDigits : ℚ × List Char :=
    match s.data with
    | '-' :: rest => (-1, rest)
    | '+' :: rest => (1, rest)
    | l => (1, l)
  let sign := signAndDigits.1
  match signAndDigits.2.splitOn '.' with
  | [ip] =>
      if ip ≠ [] ∧ allDigits ip then some (sign * digitsVal ip) else Option.none
  | [ip, fp] =>
      if (ip ≠ [] ∨ fp ≠ []) ∧ allDigits ip ∧ allDigits fp then
        some (sign * ((digitsVal ip : ℚ) + (digitsVal fp : ℚ) / 10 ^ fp.length))
      else Option.none
  | _ => Option.none

/-! ## Embedded source functions -/

/-- Word table `ones` from `number_to_words` (invoice_generator.py
line 72). -/
def ones : List String :=
  ["", "One", "Two", "Three", "Four", "Five", "Six", "Seven", "Eight", "Nine"]

/-- Word table `tens` from `number_to_words` (invoice_generator.py
line 73). -/
def tens : List String :=
  ["", "", "Twenty", "Thirty", "Forty", "Fifty", "Sixty", "Seventy", "Eighty",
   "Ninety"]

/-- Word table `teens` from `number_to_words` (invoice_generator.py
lines 74-75). -/
def teens : List String :=
  ["Ten", "Eleven", "Twelve", "Thirteen", "Fourteen", "Fifteen",
   "Sixteen", "Seventeen", "Eighteen", "Nineteen"]

/-- The non-recursive (`n < 100`) branches of `convert_below_thousand`
(invoice_generator.py lines 79-86).  The source function recurses only on
`n % 100 < 100`, so unrolling that single level of recursion into this
helper makes the definition structurally recursive;
`convert_below_thousand_eq_source` below re-establishes the source's
recursive equation. -/
def convert_below_hundred (n : Nat) : String :=
  if n = 0 then ""
  else if n < 10 then ones.getD n ""
  else if n < 20 then teens.getD (n - 10) ""
  else tens.getD (n / 10) "" ++ (if n % 10 ≠ 0 then " " ++ ones.getD (n % 10) "" else "")

/-- Embedding of `convert_below_thousand` (invoice_generator.py lines 77-90), with the
single level of recursion (`convert_below_thousand(n % 100)`) unrolled via
`convert_below_hundred`.  (The source indexes `ones[n // 100]`, which in
Python is only reachable without an `IndexError` for `n < 1000`; `getD`
totalises the out-of-range case, which no claim exercises.) -/
def convert_below_thousand (n : Nat) : String :=
  if n < 100 then convert_below_hundred n
  else
    let hundreds := ones.getD (n / 100) "" ++ " Hundred"
    let remainder := convert_below_hundred (n % 100)
    if remainder = "" then hundreds else hundreds ++ " " ++ remainder

/-- The Indian-numbering decomposition computed by `number_to_words`
(invoice_generator.py lines 97-102): crore, lakh, thousand and the final
below-1000 remainder. -/
def decompose (num : Nat) : Nat × Nat × Nat × Nat :=
  let crore := num / 10000000
  let num1 := num % 10000000
  let lakh := num1 / 100000
  let num2 := num1 % 100000
  let thousand := num2 / 1000
  let num3 := num2 % 1000
  (crore, lakh, thousand, num3)

/-- Embedding of `number_to_words` (invoice_generator.py lines 55-115): zero is
special-cased, otherwise each nonzero group is rendered and suffixed with
its magnitude word, and the groups are joined with single spaces
(`' '.join(result)`). -/
def number_to_words (num : Nat) : String :=
  if num = 0 then "Zero"
  else
    let g := decompose num
    let result :=
      (if g.1 ≠ 0 then [convert_below_thousand g.1 ++ " Crore"] else [])
      ++ (if g.2.1 ≠ 0 then [convert_below_thousand g.2.1 ++ " Lakh"] else [])
      ++ (if g.2.2.1 ≠ 0 then [convert_below_thousand g.2.2.1 ++ " Thousand"] else [])
      ++ (if g.2.2.2 ≠ 0 then [convert_below_thousand g.2.2.2] else [])
    pyJoin " " result

/-- Embedding of `safe_float` (invoice_generator.py lines 118-136).  In Python the
guard `value is None or value == ''` only fires for `None` and the empty
string (no int or float compares equal to `''`); `float()` on an int or
float never fails; on a string, commas are stripped first and a parse
failure falls back to the default.  The embedding is total, which models
the source's guarantee that `safe_float` never raises. -/
def safe_float (value : PyVal) (default : ℚ) : ℚ :=
  match value with
  | PyVal.none => default
  | PyVal.str s =>
      if s = "" then default
      else
        match parseFloat (stripCommas s) with
        | some q => q
        | Option.none => default
  | PyVal.int i => (i : ℚ)
  | PyVal.float q => q

/-- Embedding of `format_amount` (invoice_generator.py lines 139-151): two decimal
places when the amount has a fractional part (`amount % 1 != 0`, i.e. the
rational is not an integer), otherwise `str(int(amount))` (and on an
integral value `int` is exact, so it is the numerator). -/
def format_amount (amount : ℚ) : String :=
  if amount.den ≠ 1 then
    let cents := pyRound (amount * 100)
    let a := cents.natAbs
    (if cents < 0 then "-" else "") ++ pyStrNat (a / 100) ++ "." ++
      String.mk [Nat.digitChar (a / 10 % 10), Nat.digitChar (a % 10)]
  else pyStrInt amount.num

/-- Default CGST rate `DEFAULT_CGST_RATE` (config.py line 25). -/
def DEFAULT_CGST_RATE : ℚ := 9

/-- Default SGST rate `DEFAULT_SGST_RATE` (config.py line 26). -/
def DEFAULT_SGST_RATE : ℚ := 9

/-- Embedding of `InvoiceGenerator._calculate_tax_rate` (invoice_generator.py
lines 470-484). -/
def calculate_tax_rate (tax_amount taxable default_rate : ℚ) : ℚ :=
  if 0 < taxable ∧ 0 < tax_amount then pyRound2 (tax_amount / taxable * 100)
  else default_rate

/-- The raw numeric fields of the simplified invoice record that feed the
tax-summary computation of `_transform_input`; `Option.none` in a field
models an absent dictionary key (the source reads each with
`invoice_data.get(key, '0')`). -/
structure RawTaxInput where
  taxable_amount : Option PyVal
  cgst : Option PyVal
  sgst : Option PyVal
  total : Option PyVal

/-- The `tax_summary` record built by `_transform_input`
(invoice_generator.py lines 422-431); `round_off = Option.none` models
the empty string stored when the round-off is negligible. -/
structure TaxSummary where
  taxable_amount : ℚ
  cgst_rate : ℚ
  cgst_amount : ℚ
  sgst_rate : ℚ
  sgst_amount : ℚ
  round_off : Option ℚ
  invoice_total : ℚ

/-- The tax-summary portion of `InvoiceGenerator._transform_input`
(invoice_generator.py lines 392-431): coerce the four amounts with
`safe_float`, back-calculate the tax rates, compute the always-positive
round-off (`abs(round(actual) - actual)`, stored only when its magnitude
exceeds 0.01, rounded to two decimals), and choose the final total. -/
def transform_tax_summary (d : RawTaxInput) : TaxSummary :=
  let taxable := safe_float ((d.taxable_amount).getD (PyVal.str "0")) 0
  let cgst_amount := safe_float ((d.cgst).getD (PyVal.str "0")) 0
  let sgst_amount := safe_float ((d.sgst).getD (PyVal.str "0")) 0
  let total_input := safe_float ((d.total).getD (PyVal.str "0")) 0
  let cgst_rate := calculate_tax_rate cgst_amount taxable DEFAULT_CGST_RATE
  let sgst_rate := calculate_tax_rate sgst_amount taxable DEFAULT_SGST_RATE
  let actual_total := taxable + cgst_amount + sgst_amount
  let rounded_total := pyRound actual_total
  let round_off := |(rounded_total : ℚ) - actual_total|
  let final_total := if 0 < total_input then total_input else (rounded_total : ℚ)
  { taxable_amount := taxable
    cgst_rate := cgst_rate
    cgst_amount := cgst_amount
    sgst_rate := sgst_rate
    sgst_amount := sgst_amount
    round_off := if 1 / 100 < |round_off| then some (pyRound2 round_off) else Option.none
    invoice_total := final_total }

/-- Helper for `InvoiceGenerator._parse_customer_info` (invoice_generator.py
lines 434-447), which uses `to_field.split(',', 1)`: split at the first comma
only.  This models that split: the part before the first occurrence of
`c`, and — when `c` occurs — the part after it. -/
def splitOnFirst (c : Char) : List Char → List Char × Option (List Char)
  | [] => ([], Option.none)
  | x :: xs =>
      if x = c then ([], some xs)
      else
        let r := splitOnFirst c xs
        (x :: r.1, r.2)

/-- Embedding of `InvoiceGenerator._parse_customer_info` (invoice_generator.py
lines 434-447): the first split part stripped is the name; when a comma is
present the remainder stripped is the address, otherwise the address is
the whole unmodified input string. -/
def parse_customer_info (to_field : String) : String × String :=
  match splitOnFirst ',' to_field.data with
  | (before, some after) => (pyStrip (String.mk before), pyStrip (String.mk after))
  | (before, Option.none) => (pyStrip (String.mk before), to_field)

/-- Required-key list `required_fields` of `lambda_handler` (lambda_function.py line 87). -/
def required_fields : List String :=
  ["invoice_no", "invoice_date", "to", "items", "taxable_amount", "total"]

/-- The `missing_fields` list comprehension of `lambda_handler`
(lambda_function.py line 88): required fields absent from the parsed
record's key set, in the order of `required_fields`. -/
def missing_fields (keys : List String) : List String :=
  required_fields.filter (fun f => decide (f ∉ keys))

/-- The validation step of `lambda_handler` (lambda_function.py
lines 86-96): `some msg` models the 400 "missing fields" response body,
`Option.none` means validation passes and no missing-fields error is
returned. -/
def validate_fields (keys : List String) : Option String :=
  if missing_fields keys = [] then Option.none
  else some ("Missing required fields: " ++ pyJoin ", " (missing_fields keys))

/-- No two consecutive spaces occur in the character list. -/
def noTwoSpaces : List Char → Bool
  | [] => true
  | [_] => true
  | a :: b :: rest => !(a == ' ' && b == ' ') && noTwoSpaces (b :: rest)

/-- A rendered word string is well-formed: non-empty, no leading space, no
trailing space, and no two consecutive spaces. -/
def GoodChars (l : List Char) : Prop :=
  l ≠ [] ∧ l.head? ≠ some ' ' ∧ l.getLast? ≠ some ' ' ∧ noTwoSpaces l = true

instance (l : List Char) : Decidable (GoodChars l) :=
  inferInstanceAs (Decidable (l ≠ [] ∧ l.head? ≠ some ' ' ∧ l.getLast? ≠ some ' ' ∧
    noTwoSpaces l = true))

end Invoice

namespace Invoice

/-! ## Helper lemmas -/

/-- For inputs below 100, `convert_below_thousand` agrees with the
unrolled helper (this is what makes the unrolling faithful). -/
theorem convert_below_thousand_lt_100 (n : Nat) (h : n < 100) :
    convert_below_thousand n = convert_below_hundred n := by
  unfold convert_below_thousand
  rw [if_pos h]

/-- The source's recursive equation for the `n ≥ 100` branch of
`convert_below_thousand`: the recursive call is on `n % 100`. -/
theorem convert_below_thousand_eq_source (n : Nat) (h : 100 ≤ n) :
    convert_below_thousand n =
      (let hundreds := ones.getD (n / 100) "" ++ " Hundred"
       let remainder := convert_below_thousand (n % 100)
       if remainder = "" then hundreds else hundreds ++ " " ++ remainder) := by
  have h2 : n % 100 < 100 := Nat.mod_lt _ (by omega)
  rw [convert_below_thousand_lt_100 (n % 100) h2]
  unfold convert_below_thousand
  rw [if_neg (by omega)]

/-- Evaluating `safe_float` on a non-empty string gives the parse of the comma-stripped
string, with the default on parse failure. -/
theorem safe_float_str (s : String) (d : ℚ) (h : s ≠ "") :
    safe_float (PyVal.str s) d =
      (match parseFloat (stripCommas s) with
       | some q => q
       | Option.none => d) := by
  simp only [safe_float, if_neg h]

/-- Rounding with `pyRound` never takes a non-negative rational to a negative
integer. -/
theorem pyRound_nonneg (x : ℚ) (hx : 0 ≤ x) : 0 ≤ pyRound x := by
  have h0 : (0 : ℤ) ≤ ⌊x⌋ := Int.floor_nonneg.mpr hx
  unfold pyRound
  dsimp only
  split
  · exact h0
  · split
    · omega
    · split <;> omega

/-- Rounding with `pyRound2` preserves non-negativity. -/
theorem pyRound2_nonneg (x : ℚ) (hx : 0 ≤ x) : 0 ≤ pyRound2 x := by
  unfold pyRound2
  have h : (0 : ℤ) ≤ pyRound (x * 100) := pyRound_nonneg _ (by positivity)
  exact div_nonneg (by exact_mod_cast h) (by norm_num)

/-- Splitting a list not containing the separator returns the whole
list and no remainder (Python `s.split(c, 1)` returning a single part). -/
theorem splitOnFirst_not_mem (c : Char) (l : List Char) (h : c ∉ l) :
    splitOnFirst c l = (l, Option.none) := by
  induction l with
  | nil => rfl
  | cons x xs ih =>
    have hx : ¬ x = c := by
      intro he
      exact h (by rw [he]; exact List.mem_cons_self c xs)
    have hxs : c ∉ xs := fun hm => h (List.mem_cons_of_mem _ hm)
    simp only [splitOnFirst, if_neg hx, ih hxs]

/-- Splitting locates exactly the first occurrence of the
separator. -/
theorem splitOnFirst_append (c : Char) (l₁ l₂ : List Char) (h : c ∉ l₁) :
    splitOnFirst c (l₁ ++ c :: l₂) = (l₁, some l₂) := by
  induction l₁ with
  | nil =>
    rw [List.nil_append]
    simp only [splitOnFirst]
    rw [if_true]
  | cons x xs ih =>
    have hx : ¬ x = c := by
      intro he
      exact h (by rw [he]; exact List.mem_cons_self c xs)
    have hxs : c ∉ xs := fun hm => h (List.mem_cons_of_mem _ hm)
    rw [List.cons_append]
    simp only [splitOnFirst, if_neg hx]
    rw [ih hxs]

/-- Applying `Nat.digitChar` to a value below 10 gives a decimal digit character. -/
theorem digitChar_isDigit : ∀ m : Nat, m < 10 → (Nat.digitChar m).isDigit = true := by
  decide

/-- Every character produced by `natDigitsAux` is a decimal digit. -/
theorem natDigitsAux_digits (fuel : Nat) :
    ∀ n : Nat, ∀ c ∈ natDigitsAux fuel n, c.isDigit = true := by
  induction fuel with
  | zero =>
    intro n c hc
    cases hc
  | succ f ih =>
    intro n c hc
    rw [natDigitsAux] at hc
    split at hc
    · cases hc
    · rcases List.mem_append.mp hc with h1 | h2
      · exact ih _ _ h1
      · rcases List.mem_singleton.mp h2 with rfl
        exact digitChar_isDigit _ (Nat.mod_lt _ (by omega))

/-- Every character of `pyStrNat n` is a decimal digit. -/
theorem pyStrNat_digits (n : Nat) : ∀ c ∈ (pyStrNat n).data, c.isDigit = true := by
  rw [pyStrNat]
  split
  · decide
  · exact natDigitsAux_digits _ _

/-- A decimal point never occurs in `pyStrNat n`. -/
theorem dot_not_mem_pyStrNat (n : Nat) : '.' ∉ (pyStrNat n).data := fun hm =>
  absurd (pyStrNat_digits n _ hm) (by decide)

/-- A decimal point never occurs in `pyStrInt i`. -/
theorem dot_not_mem_pyStrInt (i : ℤ) : '.' ∉ (pyStrInt i).data := by
  rw [pyStrInt]
  split
  · intro hm
    rw [String.data_append] at hm
    rcases List.mem_append.mp hm with h1 | h2
    · exact absurd h1 (by decide)
    · exact dot_not_mem_pyStrNat _ h2
  · exact dot_not_mem_pyStrNat _

/-- Prepending a space to a list that does not start with a space
preserves the no-double-space invariant. -/
theorem noTwoSpaces_space_cons (b : List Char) (hbh : b.head? ≠ some ' ')
    (hb : noTwoSpaces b = true) : noTwoSpaces (' ' :: b) = true := by
  cases b with
  | nil => rfl
  | cons y ys =>
    have hy : y ≠ ' ' := by simpa using hbh
    simp [noTwoSpaces, hb, hy]

/-- Joining two space-free-boundary lists with a single space keeps the
no-double-space invariant. -/
theorem noTwoSpaces_append (a b : List Char) (ha : noTwoSpaces a = true)
    (hal : a.getLast? ≠ some ' ') (hbh : b.head? ≠ some ' ')
    (hb : noTwoSpaces b = true) : noTwoSpaces (a ++ ' ' :: b) = true := by
  induction a with
  | nil => exact noTwoSpaces_space_cons b hbh hb
  | cons x xs ih =>
    cases xs with
    | nil =>
      have hx : x ≠ ' ' := by simpa using hal
      have htl := noTwoSpaces_space_cons b hbh hb
      simp [noTwoSpaces, hx, htl]
    | cons y ys =>
      rw [noTwoSpaces, Bool.and_eq_true] at ha
      rcases ha with ⟨ha1, ha2⟩
      have hal2 : (y :: ys).getLast? ≠ some ' ' := by
        rwa [List.getLast?_cons_cons] at hal
      have htl := ih ha2 hal2
      rw [List.cons_append, List.cons_append, noTwoSpaces]
      rw [List.cons_append] at htl
      simp only [htl, ha1, Bool.and_self]

/-- Joining two good word strings with a single space yields a good word
string (character-list level). -/
theorem goodChars_append_space (a b : List Char) (ha : GoodChars a)
    (hb : GoodChars b) : GoodChars (a ++ ' ' :: b) := by
  obtain ⟨ha0, hah, hal, hat⟩ := ha
  obtain ⟨hb0, hbh, hbl, hbt⟩ := hb
  refine ⟨by simp, ?_, ?_, noTwoSpaces_append a b hat hal hbh hbt⟩
  · cases a with
    | nil => exact absurd rfl ha0
    | cons x xs => simpa using hah
  · rw [List.getLast?_append]
    cases b with
    | nil => exact absurd rfl hb0
    | cons y ys =>
      rw [List.getLast?_cons_cons]
      have : (y :: ys).getLast? ≠ none := by simp
      cases hg : (y :: ys).getLast? with
      | none => exact absurd hg this
      | some z =>
        rw [hg] at hbl
        simpa using hbl

/-- Joining two good strings with a single space yields a good string. -/
theorem goodChars_string_append (s t : String) (hs : GoodChars s.data)
    (ht : GoodChars t.data) : GoodChars (s ++ " " ++ t).data := by
  rw [String.data_append, String.data_append, List.append_assoc]
  exact goodChars_append_space _ _ hs ht

/-- Joining a non-empty list of good strings with single spaces gives a good string. -/
theorem goodChars_pyJoin (l : List String) (h0 : l ≠ [])
    (h : ∀ s ∈ l, GoodChars s.data) : GoodChars (pyJoin " " l).data := by
  induction l with
  | nil => exact absurd rfl h0
  | cons s rest ih =>
    cases rest with
    | nil => exact h s (by simp)
    | cons t ts =>
      have hj : pyJoin " " (s :: t :: ts) = s ++ " " ++ pyJoin " " (t :: ts) := rfl
      rw [hj]
      exact goodChars_string_append _ _ (h s (by simp))
        (ih (by simp) (fun u hu => h u (List.mem_cons_of_mem _ hu)))

set_option maxRecDepth 100000 in
set_option maxHeartbeats 4000000 in
/-- Every nonzero group value below 1000 renders to a good word string
(checked exhaustively over the finite domain). -/
theorem convert_below_thousand_good :
    ∀ n : Nat, n < 1000 → n ≠ 0 → GoodChars (convert_below_thousand n).data := by
  decide

/-! ## Claim theorems -/

/-- C1: for every `n` in `[1, 99999999]`, the crore/lakh/thousand/ones
decomposition used by `number_to_words` reconstructs `n`:
`crore*10000000 + lakh*100000 + thousand*1000 + ones_group = n`. -/
theorem decompose_reconstructs (n : Nat) (h1 : 1 ≤ n) (h2 : n ≤ 99999999) :
    (decompose n).1 * 10000000 + (decompose n).2.1 * 100000 +
      (decompose n).2.2.1 * 1000 + (decompose n).2.2.2 = n := by
  dsimp only [decompose]
  omega

/-- Witness for C1 at `n = 29972`. -/
theorem decompose_reconstructs_witness :
    1 ≤ 29972 ∧ 29972 ≤ 99999999 ∧
      (decompose 29972).1 * 10000000 + (decompose 29972).2.1 * 100000 +
        (decompose 29972).2.2.1 * 1000 + (decompose 29972).2.2.2 = 29972 :=
  ⟨by decide, by decide, decompose_reconstructs 29972 (by decide) (by decide)⟩

/-- C2: the four fixed conversion vectors of `number_to_words`. -/
theorem number_to_words_fixed_vectors :
    number_to_words 0 = "Zero" ∧
      number_to_words 29972 = "Twenty Nine Thousand Nine Hundred Seventy Two" ∧
      number_to_words 1000000 = "Ten Lakh" ∧
      number_to_words 10000000 = "One Crore" :=
  ⟨rfl, rfl, rfl, rfl⟩

/-- C4: `_calculate_tax_rate` returns `round(tax_amount / taxable * 100, 2)`
when both `taxable > 0` and `tax_amount > 0`, and the configured default
rate in every other case; in particular a tax amount of exactly 0 (with any
taxable amount) yields the default, not 0 and not an error. -/
theorem calculate_tax_rate_spec (ta tx dr : ℚ) :
    (0 < tx → 0 < ta → calculate_tax_rate ta tx dr = pyRound2 (ta / tx * 100)) ∧
    (¬(0 < tx ∧ 0 < ta) → calculate_tax_rate ta tx dr = dr) ∧
    calculate_tax_rate 0 tx dr = dr := by
  refine ⟨fun h1 h2 => ?_, fun h => ?_, ?_⟩
  · rw [calculate_tax_rate, if_pos ⟨h1, h2⟩]
  · rw [calculate_tax_rate, if_neg h]
  · rw [calculate_tax_rate, if_neg (by rintro ⟨-, h⟩; exact lt_irrefl 0 h)]

/-- Witness for C4: `taxable = 0, cgst = 0` falls back to the configured
default rate 9, and a positive pair takes the computed-rate branch. -/
theorem calculate_tax_rate_spec_witness :
    calculate_tax_rate 0 0 DEFAULT_CGST_RATE = DEFAULT_CGST_RATE ∧
    calculate_tax_rate 2286 25400 DEFAULT_CGST_RATE = pyRound2 ((2286 : ℚ) / 25400 * 100) :=
  ⟨(calculate_tax_rate_spec 0 0 DEFAULT_CGST_RATE).2.2,
   (calculate_tax_rate_spec 2286 25400 DEFAULT_CGST_RATE).1 (by norm_num) (by norm_num)⟩

/-- C6: `safe_float` never raises (it is total) and: `None`, the empty
string, and any unparseable string yield the caller-supplied default;
parseable strings are parsed after stripping `','` thousands separators
(so `safe_float "25,401" = 25401.0`); ints and floats convert exactly. -/
theorem safe_float_spec (d : ℚ) :
    safe_float (PyVal.str "25,401") d = 25401 ∧
    safe_float (PyVal.str "") d = d ∧
    safe_float PyVal.none d = d ∧
    safe_float (PyVal.str "abc") d = d ∧
    (∀ s : String, s ≠ "" → parseFloat (stripCommas s) = Option.none →
      safe_float (PyVal.str s) d = d) ∧
    (∀ s : String, ∀ q : ℚ, s ≠ "" → parseFloat (stripCommas s) = some q →
      safe_float (PyVal.str s) d = q) ∧
    (∀ i : ℤ, safe_float (PyVal.int i) d = (i : ℚ)) ∧
    (∀ q : ℚ, safe_float (PyVal.float q) d = q) := by
  refine ⟨?_, rfl, rfl, rfl, fun s hs hp => ?_, fun s q hs hp => ?_,
    fun i => rfl, fun q => rfl⟩
  · have hp : parseFloat (stripCommas "25,401") = some ((1 : ℚ) * ((25401 : ℕ) : ℚ)) := rfl
    rw [safe_float_str "25,401" d (by decide), hp]
    norm_num
  · rw [safe_float_str s d hs, hp]
  · rw [safe_float_str s d hs, hp]

/-- C3: in the transformed record, `round_off` equals
`abs(round(T) - T)` for `T = taxable + cgst_amount + sgst_amount`, stored
as empty (here `Option.none`) when that magnitude is at most 0.01 and
otherwise as the magnitude rounded to two decimals — hence non-negative
whenever numeric. -/
theorem round_off_spec (d : RawTaxInput) (T : ℚ)
    (hT : T = safe_float ((d.taxable_amount).getD (PyVal.str "0")) 0 +
          safe_float ((d.cgst).getD (PyVal.str "0")) 0 +
          safe_float ((d.sgst).getD (PyVal.str "0")) 0) :
    (transform_tax_summary d).round_off =
      (if 1 / 100 < |(pyRound T : ℚ) - T| then some (pyRound2 |(pyRound T : ℚ) - T|)
       else Option.none) ∧
    (∀ q : ℚ, (transform_tax_summary d).round_off = some q → 0 ≤ q) := by
  subst hT
  unfold transform_tax_summary
  dsimp only
  refine ⟨by rw [abs_abs], fun q hq => ?_⟩
  rw [abs_abs] at hq
  split at hq
  · cases hq
    exact pyRound2_nonneg _ (abs_nonneg _)
  · cases hq

/-- Witness for C3 on the spec's round-off vector
(`taxable = 25401`, `cgst = sgst = 2286.09`): the true total `29973.18`
is rounded to `29973`, the stored round-off is `0.18` and it is
non-negative. -/
theorem round_off_spec_witness :
    (transform_tax_summary ⟨some (PyVal.float 25401), some (PyVal.float 2286.09),
        some (PyVal.float 2286.09), Option.none⟩).round_off = some (0.18 : ℚ) ∧
    (0 : ℚ) ≤ 0.18 := by
  have h := round_off_spec
    ⟨some (PyVal.float 25401), some (PyVal.float 2286.09), some (PyVal.float 2286.09),
      Option.none⟩ (29973.18 : ℚ) (by norm_num [safe_float])
  have hr : pyRound (29973.18 : ℚ) = 29973 := by norm_num [pyRound]
  have he : (if (1 : ℚ) / 100 < |(pyRound (29973.18 : ℚ) : ℚ) - 29973.18| then
      some (pyRound2 |(pyRound (29973.18 : ℚ) : ℚ) - 29973.18|) else Option.none)
      = some (0.18 : ℚ) := by
    rw [hr]
    have habs : |((29973 : ℤ) : ℚ) - 29973.18| = 0.18 := by
      rw [abs_of_nonpos (by push_cast; norm_num)]
      push_cast
      norm_num
    rw [habs, if_pos (by norm_num)]
    have hp2 : pyRound2 (0.18 : ℚ) = 0.18 := by norm_num [pyRound2, pyRound]
    rw [hp2]
  exact ⟨h.1.trans he, h.2 _ (h.1.trans he)⟩

/-- C7: `invoice_total` is the caller-supplied total (coerced with
`safe_float`) whenever that coercion is strictly positive, and otherwise
the rounded total `round(taxable + cgst_amount + sgst_amount)`. -/
theorem invoice_total_spec (d : RawTaxInput) :
    (0 < safe_float ((d.total).getD (PyVal.str "0")) 0 →
      (transform_tax_summary d).invoice_total =
        safe_float ((d.total).getD (PyVal.str "0")) 0) ∧
    (¬ 0 < safe_float ((d.total).getD (PyVal.str "0")) 0 →
      (transform_tax_summary d).invoice_total =
        (pyRound (safe_float ((d.taxable_amount).getD (PyVal.str "0")) 0 +
                  safe_float ((d.cgst).getD (PyVal.str "0")) 0 +
                  safe_float ((d.sgst).getD (PyVal.str "0")) 0) : ℚ)) := by
  unfold transform_tax_summary
  dsimp only
  exact ⟨fun h => by rw [if_pos h], fun h => by rw [if_neg h]⟩

/-- Witness for C7: a positive supplied total is used verbatim, and with
every field absent the rounded total (0) is used. -/
theorem invoice_total_spec_witness :
    (transform_tax_summary ⟨some (PyVal.float 25401), some (PyVal.float 2286.09),
        some (PyVal.float 2286.09), some (PyVal.float 29973.18)⟩).invoice_total
      = (29973.18 : ℚ) ∧
    (transform_tax_summary ⟨Option.none, Option.none, Option.none,
        Option.none⟩).invoice_total = 0 := by
  constructor
  · have h := (invoice_total_spec ⟨some (PyVal.float 25401), some (PyVal.float 2286.09),
        some (PyVal.float 2286.09), some (PyVal.float 29973.18)⟩).1
        (by norm_num [safe_float])
    rw [h]
    rfl
  · have h0 : safe_float ((Option.none : Option PyVal).getD (PyVal.str "0")) 0 = 0 := by
      have hp : parseFloat (stripCommas "0") = some ((1 : ℚ) * ((0 : ℕ) : ℚ)) := rfl
      rw [Option.getD_none, safe_float_str _ _ (by decide), hp]
      norm_num
    have h := (invoice_total_spec ⟨Option.none, Option.none, Option.none, Option.none⟩).2
        (by rw [h0]; norm_num)
    rw [h, h0]
    norm_num [pyRound]

/-- C5: `_parse_customer_info` splits the `to` string on the first comma:
with a comma, the name is the part before it trimmed and the address the
remainder trimmed; without a comma, the name is the whole string trimmed
and the address is the whole input string unmodified (a duplicate of the
input, not the empty string). -/
theorem parse_customer_info_spec (s pre post : String) :
    ((',' ∉ s.data) → parse_customer_info s = (pyStrip s, s)) ∧
    ((',' ∉ pre.data) → s.data = pre.data ++ ',' :: post.data →
      parse_customer_info s = (pyStrip pre, pyStrip post)) := by
  constructor
  · intro h
    rw [parse_customer_info, splitOnFirst_not_mem _ _ h]
  · intro h hs
    rw [parse_customer_info, hs, splitOnFirst_append _ _ _ h]

/-- Witness for C5: a comma-free input duplicates itself into the address,
and a comma input splits and trims. -/
theorem parse_customer_info_spec_witness :
    parse_customer_info "Just A Name" = ("Just A Name", "Just A Name") ∧
    parse_customer_info "ABC, 123 Street" = ("ABC", "123 Street") := by
  constructor
  · have h := (parse_customer_info_spec "Just A Name" "" "").1 (by decide)
    rw [h]
    rfl
  · have h := (parse_customer_info_spec "ABC, 123 Street" "ABC" " 123 Street").2
      (by decide) (by decide)
    rw [h]
    rfl

/-- C8: the boundary validation returns a 400 "missing fields" error
exactly when at least one required key (`invoice_no, invoice_date, to,
items, taxable_amount, total`) is absent, and the error message lists
every absent required key in the stable order of `required_fields`; input
lacking both `total` and `items` names both. -/
theorem validate_fields_spec (keys : List String) :
    (validate_fields keys ≠ Option.none ↔ ∃ f ∈ required_fields, f ∉ keys) ∧
    (∀ msg, validate_fields keys = some msg →
      msg = "Missing required fields: " ++ pyJoin ", " (missing_fields keys)) ∧
    validate_fields ["invoice_no", "invoice_date", "to", "taxable_amount"] =
      some "Missing required fields: items, total" := by
  have h1 : (missing_fields keys = []) ↔ ∀ f ∈ required_fields, f ∈ keys := by
    simp [missing_fields, List.filter_eq_nil_iff]
  refine ⟨?_, fun msg hm => ?_, rfl⟩
  · by_cases hc : missing_fields keys = []
    · rw [validate_fields, if_pos hc]
      simp only [ne_eq, not_true_eq_false, false_iff]
      push_neg
      exact h1.mp hc
    · rw [validate_fields, if_neg hc]
      have he : ∃ f ∈ required_fields, f ∉ keys := by
        have h2 := mt h1.mpr hc
        push_neg at h2
        exact h2
      exact iff_of_true (by simp) he
  · rw [validate_fields] at hm
    split at hm
    · cases hm
    · cases hm
      rfl

/-- Witness for C8: the example lacking `items` and `total` produces the
message naming both, in required-field order, and that message agrees with
the joined `missing_fields` list. -/
theorem validate_fields_spec_witness :
    validate_fields ["invoice_no", "invoice_date", "to", "taxable_amount"] =
      some "Missing required fields: items, total" ∧
    "Missing required fields: items, total" =
      "Missing required fields: " ++
        pyJoin ", " (missing_fields ["invoice_no", "invoice_date", "to", "taxable_amount"]) := by
  have h := validate_fields_spec ["invoice_no", "invoice_date", "to", "taxable_amount"]
  exact ⟨h.2.2, h.2.1 _ h.2.2⟩

/-- C9: `format_amount` renders a non-integral amount with exactly two
decimal places (a unique final decimal point followed by exactly two digit
characters) and an integral amount as a plain integer string with no
decimal point (hence no trailing ".00"); in particular
`format_amount 2286 = "2286"` and `format_amount 2286.09 = "2286.09"`. -/
theorem format_amount_spec (q : ℚ) :
    (q.den ≠ 1 → ∃ pre : List Char, ∃ d1 d2 : Char,
      (format_amount q).data = pre ++ '.' :: [d1, d2] ∧ '.' ∉ pre ∧
        d1.isDigit = true ∧ d2.isDigit = true) ∧
    (q.den = 1 → format_amount q = pyStrInt q.num ∧ '.' ∉ (format_amount q).data) ∧
    format_amount 2286 = "2286" ∧
    format_amount (2286.09 : ℚ) = "2286.09" := by
  refine ⟨fun h => ?_, fun h => ?_, ?_, ?_⟩
  · rw [format_amount, if_pos h]
    dsimp only
    refine ⟨((if pyRound (q * 100) < 0 then "-" else "") ++
        pyStrNat ((pyRound (q * 100)).natAbs / 100)).data,
      Nat.digitChar ((pyRound (q * 100)).natAbs / 10 % 10),
      Nat.digitChar ((pyRound (q * 100)).natAbs % 10), ?_, ?_, ?_, ?_⟩
    · simp only [String.data_append, List.append_assoc]
      rfl
    · intro hm
      rw [String.data_append] at hm
      rcases List.mem_append.mp hm with h1 | h2
      · split at h1
        · exact absurd h1 (by decide)
        · exact absurd h1 (by decide)
      · exact dot_not_mem_pyStrNat _ h2
    · exact digitChar_isDigit _ (Nat.mod_lt _ (by omega))
    · exact digitChar_isDigit _ (Nat.mod_lt _ (by omega))
  · have hff : format_amount q = pyStrInt q.num := by
      rw [format_amount, if_neg (not_not_intro h)]
    exact ⟨hff, hff ▸ dot_not_mem_pyStrInt q.num⟩
  · have h : (2286 : ℚ).den = 1 := by norm_num
    rw [format_amount, if_neg (not_not_intro h)]
    rfl
  · have h : (2286.09 : ℚ).den ≠ 1 := by norm_num
    have hc : pyRound ((2286.09 : ℚ) * 100) = 228609 := by norm_num [pyRound]
    rw [format_amount, if_pos h]
    simp only [hc]
    rfl

/-- Witness for C9: the integral branch applied at 2286 and the fixed
vector at 2286.09. -/
theorem format_amount_spec_witness :
    format_amount (2286.09 : ℚ) = "2286.09" ∧
    format_amount (2286 : ℚ) = pyStrInt (2286 : ℚ).num ∧
    '.' ∉ (format_amount (2286 : ℚ)).data := by
  have h1 := format_amount_spec (2286.09 : ℚ)
  have h2 := (format_amount_spec (2286 : ℚ)).2.1 (by norm_num)
  exact ⟨h1.2.2.2, h2.1, h2.2⟩

/-- Witness for C6: the comma-separated vector parses and an unparseable
string falls back to the supplied default. -/
theorem safe_float_spec_witness :
    safe_float (PyVal.str "25,401") 0 = 25401 ∧ safe_float (PyVal.str "xyz") 3 = 3 := by
  have h := safe_float_spec 0
  have h3 := safe_float_spec 3
  exact ⟨h.1, h3.2.2.2.2.1 "xyz" (by decide) rfl⟩

/-- C10: for every `n` in `[1, 99999999]`, `number_to_words n` is a
non-empty string with no leading space, no trailing space, and no two
consecutive spaces; moreover `convert_below_thousand` returns the empty
string only for 0 (zero groups being omitted entirely). -/
theorem number_to_words_wellformed (n : Nat) (h1 : 1 ≤ n) (h2 : n ≤ 99999999) :
    GoodChars (number_to_words n).data ∧
    (∀ m : Nat, m < 1000 → (convert_below_thousand m = "" ↔ m = 0)) := by
  constructor
  · rw [number_to_words, if_neg (by omega)]
    dsimp only
    have hcr : (decompose n).1 < 1000 := by dsimp only [decompose]; omega
    have hlk : (decompose n).2.1 < 1000 := by dsimp only [decompose]; omega
    have hth : (decompose n).2.2.1 < 1000 := by dsimp only [decompose]; omega
    have hon : (decompose n).2.2.2 < 1000 := by dsimp only [decompose]; omega
    have hnz : ¬((decompose n).1 = 0 ∧ (decompose n).2.1 = 0 ∧
        (decompose n).2.2.1 = 0 ∧ (decompose n).2.2.2 = 0) := by
      dsimp only [decompose]
      omega
    apply goodChars_pyJoin
    · intro hL
      rw [List.append_eq_nil, List.append_eq_nil, List.append_eq_nil] at hL
      rcases hL with ⟨⟨⟨hL1, hL2⟩, hL3⟩, hL4⟩
      refine hnz ⟨?_, ?_, ?_, ?_⟩
      · by_contra hp
        rw [if_pos hp] at hL1
        cases hL1
      · by_contra hp
        rw [if_pos hp] at hL2
        cases hL2
      · by_contra hp
        rw [if_pos hp] at hL3
        cases hL3
      · by_contra hp
        rw [if_pos hp] at hL4
        cases hL4
    · intro s hs
      rw [List.mem_append, List.mem_append, List.mem_append] at hs
      have hgroup : ∀ (c : Nat) (suf : String), c ≠ 0 → c < 1000 →
          GoodChars suf.data →
          GoodChars (convert_below_thousand c ++ " " ++ suf).data :=
        fun c suf hc hlt hsuf =>
          goodChars_string_append _ _ (convert_below_thousand_good c hlt hc) hsuf
      rcases hs with (((hs | hs) | hs) | hs)
      · by_cases hp : (decompose n).1 = 0
        · rw [if_neg (not_not_intro hp)] at hs
          cases hs
        · rw [if_pos hp, List.mem_singleton] at hs
          subst hs
          have : (convert_below_thousand (decompose n).1 ++ " Crore" : String) =
              convert_below_thousand (decompose n).1 ++ " " ++ "Crore" := by
            rw [String.append_assoc]
            rfl
          rw [this]
          exact hgroup _ _ hp hcr (by decide)
      · by_cases hp : (decompose n).2.1 = 0
        · rw [if_neg (not_not_intro hp)] at hs
          cases hs
        · rw [if_pos hp, List.mem_singleton] at hs
          subst hs
          have : (convert_below_thousand (decompose n).2.1 ++ " Lakh" : String) =
              convert_below_thousand (decompose n).2.1 ++ " " ++ "Lakh" := by
            rw [String.append_assoc]
            rfl
          rw [this]
          exact hgroup _ _ hp hlk (by decide)
      · by_cases hp : (decompose n).2.2.1 = 0
        · rw [if_neg (not_not_intro hp)] at hs
          cases hs
        · rw [if_pos hp, List.mem_singleton] at hs
          subst hs
          have : (convert_below_thousand (decompose n).2.2.1 ++ " Thousand" : String) =
              convert_below_thousand (decompose n).2.2.1 ++ " " ++ "Thousand" := by
            rw [String.append_assoc]
            rfl
          rw [this]
          exact hgroup _ _ hp hth (by decide)
      · by_cases hp : (decompose n).2.2.2 = 0
        · rw [if_neg (not_not_intro hp)] at hs
          cases hs
        · rw [if_pos hp, List.mem_singleton] at hs
          subst hs
          exact convert_below_thousand_good _ hon hp
  · intro m hm
    constructor
    · intro he
      by_contra hne0
      have hg := convert_below_thousand_good m hm hne0
      exact hg.1 (by rw [he])
    · intro he
      subst he
      rfl

/-- Witness for C10 at `n = 29972` and `m = 0`. -/
theorem number_to_words_wellformed_witness :
    GoodChars (number_to_words 29972).data ∧
      (convert_below_thousand 0 = "" ↔ 0 = 0) := by
  have h := number_to_words_wellformed 29972 (by norm_num) (by norm_num)
  exact ⟨h.1, h.2 0 (by norm_num)⟩

end Invoice
